import Mathlib

/-!
A shallow embedding of the gamepad frame decoder and configuration
resolution logic (`src/gamepad.ts`, class `Gamepad`).

Raw HID frames are modelled as total functions from byte offsets to byte
values.  The loosely-typed per-field state mapping
(`IGamepadState`, `this._states`) is modelled as a total function from
field names to JavaScript values, with an explicit `undefined` constructor for
the absent / `undefined` case; JavaScript truthiness and strict-equality
coercions are made explicit.  Events emitted on the `EventEmitter` are
collected into lists, in emission order.  The filesystem directory of
controller definitions and the HID device enumeration (external
collaborators `fs` / `HID`) are passed in as explicit parameters to the
detection logic.
-/

namespace Drivethru

/-- One raw frame / report: a byte at every pin offset
(`data: Buffer` in `onControllerFrame`). -/
def Frame : Type := Nat → Nat

/-- `IStickConfig`: `{ name, x: { pin }, y: { pin } }`. -/
structure PinRef where
  pin : Nat
deriving DecidableEq, Repr

structure StickConfig where
  name : String
  x : PinRef
  y : PinRef
deriving DecidableEq, Repr

/-- `IButtonConfig`: `{ value, pin, name }`. -/
structure ButtonConfig where
  value : Nat
  pin : Nat
  name : String
deriving DecidableEq, Repr

/-- `IStatusState`: `{ value, state }`. -/
structure StatusState where
  value : Nat
  state : String
deriving DecidableEq, Repr

/-- `IStatusConfig`: `{ pin, name, states }`. -/
structure StatusConfig where
  pin : Nat
  name : String
  states : List StatusState
deriving DecidableEq, Repr

/-- `IGamepadDefinition`: the three field lists are optional
(`joysticks?`, `buttons?`, `status?`). -/
structure GamepadDefinition where
  vendorID : Nat
  productID : Nat
  joysticks : Option (List StickConfig)
  buttons : Option (List ButtonConfig)
  status : Option (List StatusConfig)
deriving DecidableEq, Repr

/-- `IGamepadOptions`: `{ vendorID?, productID? }`; `none` models an
absent property. -/
structure GamepadOptions where
  vendorID : Option Nat
  productID : Option Nat
deriving DecidableEq, Repr

/-- A JavaScript value as stored in `this._states` (type
`IStickState | boolean | string`, or `undefined` when the key was never
assigned or a status stored an unset label). -/
inductive JsVal where
  | undefined : JsVal
  | stick (x y : Nat) : JsVal
  | bool (b : Bool) : JsVal
  | str (s : String) : JsVal
deriving DecidableEq, Repr

/-- JavaScript truthiness used by `if (!this._states[stick.name])`:
`undefined`, `false` and `""` are falsy; objects are always truthy. -/
def falsy : JsVal → Bool
  | .undefined => true
  | .stick _ _ => false
  | .bool b => !b
  | .str s => s == ""

/-- Reading `.x` from a stored value (`currentState.x`); yields
`undefined` (here `none`) when the value is not a stick object. -/
def jsGetX : JsVal → Option Nat
  | .stick x _ => some x
  | _ => none

/-- Reading `.y` from a stored value (`currentState.y`). -/
def jsGetY : JsVal → Option Nat
  | .stick _ y => some y
  | _ => none

/-- JavaScript strict equality `currentState === isPressed` between a
stored value and a boolean: only a boolean can be strictly equal to a
boolean. -/
def jsStrictEqBool : JsVal → Bool → Bool
  | .bool b, p => b == p
  | _, _ => false

/-- JavaScript strict equality `currentState === updatedState` between a
stored value and a `string | undefined`. -/
def jsEqOptStr : JsVal → Option String → Bool
  | .undefined, none => true
  | .str s, some t => s == t
  | _, _ => false

/-- Storing the resolved status label back: `undefined` when no entry
matched. -/
def encodeLabel : Option String → JsVal
  | some s => .str s
  | none => .undefined

/-- The mutable `this._states` mapping. -/
def State : Type := String → JsVal

/-- `this._states = {}` in the constructor: every key reads back
`undefined`. -/
def initialStates : State := fun _ => .undefined

/-- `this._states[name] = v`. -/
def setState (st : State) (name : String) (v : JsVal) : State :=
  fun m => if m = name then v else st m

/-- Events emitted via `this.emit(...)`, with their payloads. -/
inductive Event where
  | move (name : String) (x y : Nat) : Event
  | press (name : String) : Event
  | release (name : String) : Event
  | change (name : String) (label : Option String) : Event
deriving DecidableEq, Repr

/-- The body of the `sticks.forEach((stick) => ...)` callback in
`processJoysticks`, for one stick. -/
def processJoystick1 (data : Frame) (st : State) (stick : StickConfig) :
    State × List Event :=
  if falsy (st stick.name) then
    (setState st stick.name (.stick (data stick.x.pin) (data stick.y.pin)), [])
  else if jsGetX (st stick.name) != some (data stick.x.pin)
      || jsGetY (st stick.name) != some (data stick.y.pin) then
    (setState st stick.name (.stick (data stick.x.pin) (data stick.y.pin)),
      [.move stick.name (data stick.x.pin) (data stick.y.pin)])
  else
    (st, [])

/-- The body of the `buttons.forEach((button) => ...)` callback in
`processButtons`, for one button. -/
def processButton1 (data : Frame) (st : State) (button : ButtonConfig) :
    State × List Event :=
  let isPressed : Bool := data button.pin % 256 == button.value
  match st button.name with
  | .undefined =>
      (setState st button.name (.bool isPressed),
        if isPressed then [.press button.name] else [])
  | current =>
      (setState st button.name (.bool isPressed),
        if isPressed && !jsStrictEqBool current isPressed then
          [.press button.name]
        else if !isPressed && !jsStrictEqBool current isPressed then
          [.release button.name]
        else
          [])

/-- The linear scan with `break` inside `processStatus`: the label of the
first `states` entry whose `value` equals the masked byte, `none`
(JavaScript `undefined`) when no entry matches. -/
def resolveLabel : List StatusState → Nat → Option String
  | [], _ => none
  | e :: rest, byte =>
      if e.value == byte then some e.state else resolveLabel rest byte

/-- The body of the `statuses.forEach((status) => ...)` callback in
`processStatus`, for one status. -/
def processStatus1 (data : Frame) (st : State) (status : StatusConfig) :
    State × List Event :=
  let byte := data status.pin % 256
  let updatedState := resolveLabel status.states byte
  (setState st status.name (encodeLabel updatedState),
    if jsEqOptStr (st status.name) updatedState then []
    else [.change status.name updatedState])

/-- `forEach` over a configuration list with the shared mutable state
threaded through and emissions concatenated in order. -/
def runPass {α : Type} (step : State → α → State × List Event) :
    List α → State → State × List Event
  | [], st => (st, [])
  | c :: cs, st =>
      let r1 := step st c
      let r2 := runPass step cs r1.1
      (r2.1, r1.2 ++ r2.2)

/-- `processJoysticks`: early return when `this._config.joysticks` is
absent, otherwise the `forEach` over all sticks. -/
def processJoysticks (cfg : Option (List StickConfig)) (data : Frame)
    (st : State) : State × List Event :=
  match cfg with
  | none => (st, [])
  | some sticks => runPass (processJoystick1 data) sticks st

/-- `processButtons`. -/
def processButtons (cfg : Option (List ButtonConfig)) (data : Frame)
    (st : State) : State × List Event :=
  match cfg with
  | none => (st, [])
  | some buttons => runPass (processButton1 data) buttons st

/-- `processStatus`. -/
def processStatus (cfg : Option (List StatusConfig)) (data : Frame)
    (st : State) : State × List Event :=
  match cfg with
  | none => (st, [])
  | some statuses => runPass (processStatus1 data) statuses st

/-- `onControllerFrame`: the three sub-passes in order, on the shared
state. -/
def onControllerFrame (config : GamepadDefinition) (data : Frame)
    (st : State) : State × List Event :=
  let r1 := processJoysticks config.joysticks data st
  let r2 := processButtons config.buttons data r1.1
  let r3 := processStatus config.status data r2.1
  (r3.1, r1.2 ++ r2.2 ++ r3.2)

/-- Processing a sequence of frames in arrival order. -/
def runFrames (config : GamepadDefinition) (frames : List Frame)
    (st : State) : State × List Event :=
  match frames with
  | [] => (st, [])
  | f :: rest =>
      let r1 := onControllerFrame config f st
      let r2 := runFrames config rest r1.1
      (r2.1, r1.2 ++ r2.2)

/-- Names of the configured sticks of a definition. -/
def stickNames (d : GamepadDefinition) : List String :=
  (d.joysticks.getD []).map (fun s => s.name)

/-- Names of the configured buttons of a definition. -/
def buttonNames (d : GamepadDefinition) : List String :=
  (d.buttons.getD []).map (fun b => b.name)

/-- Names of the configured statuses of a definition. -/
def statusNames (d : GamepadDefinition) : List String :=
  (d.status.getD []).map (fun s => s.name)

/-- JavaScript truthiness of an optional numeric option
(`if (this._options.vendorID)`): absent, and the number `0`, are falsy. -/
def truthyNum : Option Nat → Bool
  | some n => n != 0
  | none => false

/-- One override assignment in `loadConfiguration`:
`if (this._options.vendorID) { this._config.vendorID = this._options.vendorID; }`. -/
def applyOverride (current : Nat) (override : Option Nat) : Nat :=
  if truthyNum override then override.getD current else current

/-- `loadConfiguration`, after the definition file has been read: the
stored definition with the two optional overrides applied.  (The
existence check on the definition file itself is an external `fs`
concern and not needed here.) -/
def loadConfiguration (stored : GamepadDefinition)
    (options : GamepadOptions) : GamepadDefinition :=
  { stored with
    vendorID := applyOverride stored.vendorID options.vendorID,
    productID := applyOverride stored.productID options.productID }

/-- An entry of `HID.devices()`. -/
structure DeviceInfo where
  vendorId : Nat
  productId : Nat
deriving DecidableEq, Repr

/-- The two resolution errors thrown on the `connect` path:
`configurationNotFound` is the `The vendor "..." does not exist` throw in
`detectControllerConfiguration`, `deviceNotDetected` the
`A product for the vendor "..." could not be detected` throw in
`connect` when detection returns `false`. -/
inductive ConfigError where
  | configurationNotFound : ConfigError
  | deviceNotDetected : ConfigError
deriving DecidableEq, Repr

/-- `hasProductId`: `type.indexOf("/") > -1`, i.e. the identifier
contains the `/` separator. -/
def hasProductId (type : String) : Bool := type.toList.contains '/'

/-- The inner device loop of `detectControllerConfiguration`: does any
attached device match this candidate configuration exactly? -/
def deviceMatches (devices : List DeviceInfo) (cfg : GamepadDefinition) :
    Bool :=
  devices.any (fun d => cfg.vendorID == d.vendorId && cfg.productID == d.productId)

/-- The file loop of `detectControllerConfiguration`: the first
configuration file (in enumeration order, extension already stripped as
by `file.replace(".json", "")`) matching an attached device. -/
def scanFiles : List (String × GamepadDefinition) → List DeviceInfo →
    Option String
  | [], _ => none
  | (file, cfg) :: rest, devices =>
      if deviceMatches devices cfg then some file
      else scanFiles rest devices

/-- `detectControllerConfiguration` combined with the failure throw in
`connect`.  The controller directory tree is passed as `registry`
(mapping a vendor name to the enumerated configuration files when the
vendor directory exists, `none` when `fs.existsSync` fails), and the
attached devices as `devices`.  Success yields the (possibly narrowed)
`this._type`. -/
def detectControllerConfiguration (type : String)
    (registry : String → Option (List (String × GamepadDefinition)))
    (devices : List DeviceInfo) : Except ConfigError String :=
  if hasProductId type then .ok type
  else
    match registry type with
    | none => .error .configurationNotFound
    | some files =>
        match scanFiles files devices with
        | some file => .ok (type ++ "/" ++ file)
        | none => .error .deviceNotDetected

/-! ## Theorems -/

/-- C1: stick sub-pass.  On the first frame after construction/reset (the
stored value is still `undefined`), the pair `(frame[xPin], frame[yPin])`
is stored as baseline and no event is emitted, regardless of byte values.
On every later frame (a stick pair is stored): if both bytes equal the
stored pair, nothing is emitted and the state is untouched; if either
byte differs, exactly one `"<name>:move"` event carrying the new pair is
emitted and the stored entry is replaced by it. -/
theorem stick_subpass_correct (data : Frame) (st : State) (stick : StickConfig) :
    (st stick.name = .undefined →
      processJoystick1 data st stick =
        (setState st stick.name (.stick (data stick.x.pin) (data stick.y.pin)), []))
    ∧ (∀ x0 y0, st stick.name = .stick x0 y0 →
        ((x0 = data stick.x.pin ∧ y0 = data stick.y.pin) →
            processJoystick1 data st stick = (st, []))
        ∧ ((x0 ≠ data stick.x.pin ∨ y0 ≠ data stick.y.pin) →
            processJoystick1 data st stick =
              (setState st stick.name (.stick (data stick.x.pin) (data stick.y.pin)),
                [.move stick.name (data stick.x.pin) (data stick.y.pin)]))) := by
  refine ⟨fun h => ?_, fun x0 y0 h => ⟨fun hxy => ?_, fun hne => ?_⟩⟩
  · simp [processJoystick1, h, falsy]
  · simp [processJoystick1, h, falsy, jsGetX, jsGetY, hxy.1, hxy.2]
  · rcases hne with hx | hy
    · simp [processJoystick1, h, falsy, jsGetX, jsGetY, hx]
    · simp [processJoystick1, h, falsy, jsGetX, jsGetY, hy]

/-- Witness for C1: first frame of stick `"left"` at pins `(2, 3)` on a
frame of all `5`s stores `(5, 5)` and emits nothing. -/
theorem stick_subpass_correct_witness :
    processJoystick1 (fun _ => 5) initialStates ⟨"left", ⟨2⟩, ⟨3⟩⟩ =
      (setState initialStates "left" (.stick 5 5), []) :=
  (stick_subpass_correct (fun _ => 5) initialStates ⟨"left", ⟨2⟩, ⟨3⟩⟩).1 rfl

/-- C2 counterexample: the claim says the very first frame always emits
exactly one `"<name>:change"` event for every configured states list.
For a status with an empty states list the resolved label is the unset
marker, equal to the unset stored value, so the first frame emits no
event at all. -/
theorem status_first_frame_counterexample :
    (processStatus1 (fun _ => 0) initialStates ⟨0, "s", []⟩).2 = [] := rfl

/-- C2 amended: on the very first frame (stored value still `undefined`),
a status emits exactly one `"<name>:change"` event iff some configured
`{value, state}` entry matches the masked byte; when no entry matches,
the resolved label is itself the unset marker, equal to the stored unset
marker, and nothing is emitted.  The resolved label is stored in both
cases. -/
theorem status_first_frame_amended (data : Frame) (st : State)
    (status : StatusConfig) (h : st status.name = .undefined) :
    processStatus1 data st status =
      (setState st status.name
          (encodeLabel (resolveLabel status.states (data status.pin % 256))),
        match resolveLabel status.states (data status.pin % 256) with
        | some l => [.change status.name (some l)]
        | none => []) := by
  cases hr : resolveLabel status.states (data status.pin % 256) <;>
    simp [processStatus1, h, hr, jsEqOptStr, encodeLabel]

/-- Witness for C2 amended: a status at pin `0` with a single entry
`{value := 1, state := "on"}` on a first frame of all `1`s emits exactly
one change event carrying `"on"`. -/
theorem status_first_frame_amended_witness :
    processStatus1 (fun _ => 1) initialStates ⟨0, "s", [⟨1, "on"⟩]⟩ =
      (setState initialStates "s" (.str "on"), [.change "s" (some "on")]) := by
  have h := status_first_frame_amended (fun _ => 1) initialStates
    ⟨0, "s", [⟨1, "on"⟩]⟩ rfl
  simpa [resolveLabel, encodeLabel] using h

/-- C3 counterexample: the claim says the loaded definition's `vendorID`
equals `options.vendorID` whenever it was explicitly supplied.  Supplying
`vendorID := 0` explicitly (a falsy number in JavaScript) leaves the
stored `vendorID = 1` in place instead of setting it to `0`. -/
theorem load_override_counterexample :
    (loadConfiguration ⟨1, 2, none, none, none⟩ ⟨some 0, none⟩).vendorID = 1
    ∧ (1 : Nat) ≠ 0 := by
  exact ⟨rfl, by decide⟩

/-- C3 amended: the loaded definition's `vendorID` equals
`options.vendorID` whenever it was explicitly supplied with a nonzero
(truthy) value, and equals the stored definition's `vendorID` otherwise —
including when it was explicitly supplied as `0`; independently the same
for `productID`; no other field of the definition is affected by the
options. -/
theorem load_override_amended (stored : GamepadDefinition)
    (options : GamepadOptions) :
    ((loadConfiguration stored options).vendorID =
      match options.vendorID with
      | some n => if n = 0 then stored.vendorID else n
      | none => stored.vendorID)
    ∧ ((loadConfiguration stored options).productID =
      match options.productID with
      | some n => if n = 0 then stored.productID else n
      | none => stored.productID)
    ∧ (loadConfiguration stored options).joysticks = stored.joysticks
    ∧ (loadConfiguration stored options).buttons = stored.buttons
    ∧ (loadConfiguration stored options).status = stored.status := by
  refine ⟨?_, ?_, rfl, rfl, rfl⟩
  · cases hv : options.vendorID with
    | none => simp [loadConfiguration, applyOverride, truthyNum, hv]
    | some n =>
        by_cases hn : n = 0 <;>
          simp [loadConfiguration, applyOverride, truthyNum, hv, hn]
  · cases hp : options.productID with
    | none => simp [loadConfiguration, applyOverride, truthyNum, hp]
    | some n =>
        by_cases hn : n = 0 <;>
          simp [loadConfiguration, applyOverride, truthyNum, hp, hn]

/-- C4: button sub-pass, first observation.  With no prior entry for the
button name, `isPressed = ((frame[pin] & 0xFF) == value)` is stored;
exactly one `"<name>:press"` event is emitted when `isPressed` is true
and nothing when it is false. -/
theorem button_first_observation (data : Frame) (st : State)
    (button : ButtonConfig) (h : st button.name = .undefined) :
    processButton1 data st button =
      (setState st button.name (.bool (data button.pin % 256 == button.value)),
        if data button.pin % 256 == button.value then [.press button.name]
        else []) := by
  simp [processButton1, h]

/-- Witness for C4: button `"fire"` at pin `0` with pressed-value `3` on a
first frame of all `3`s stores `true` and emits one press event. -/
theorem button_first_observation_witness :
    processButton1 (fun _ => 3) initialStates ⟨3, 0, "fire"⟩ =
      (setState initialStates "fire" (.bool true), [.press "fire"]) := by
  have h := button_first_observation (fun _ => 3) initialStates ⟨3, 0, "fire"⟩ rfl
  simpa using h

/-- C5: button sub-pass with an existing stored boolean state: exactly one
press event iff stored `false` and fresh `isPressed = true`, exactly one
release event iff stored `true` and fresh `isPressed = false`, nothing
when unchanged; in every case the stored state is overwritten with the
fresh `isPressed`, so after the frame it equals
`(frame[pin] & 0xFF) == value`.  Moreover a press→release→press byte
sequence (with repetitions of unchanged bytes) emits exactly
`press, release, press` in order. -/
theorem button_subsequent_frames (data : Frame) (st : State)
    (button : ButtonConfig) (b : Bool) (h : st button.name = .bool b) :
    processButton1 data st button =
      (setState st button.name (.bool (data button.pin % 256 == button.value)),
        if !b && (data button.pin % 256 == button.value) then
          [.press button.name]
        else if b && !(data button.pin % 256 == button.value) then
          [.release button.name]
        else [])
    ∧ ∀ (p r : Frame), p button.pin % 256 = button.value →
        r button.pin % 256 ≠ button.value →
        (runFrames ⟨0, 0, none, some [button], none⟩ [p, p, r, r, p]
            initialStates).2 =
          [.press button.name, .release button.name, .press button.name] := by
  constructor
  · cases hp : (data button.pin % 256 == button.value) <;>
      cases b <;> simp [processButton1, h, hp, jsStrictEqBool]
  · intro p r hp hr
    have hp2 : (p button.pin % 256 == button.value) = true := by
      simpa using hp
    have hr2 : (r button.pin % 256 == button.value) = false := by
      simpa using hr
    simp [runFrames, onControllerFrame, processJoysticks, processButtons,
      processStatus, runPass, processButton1, initialStates, setState,
      hp2, hr2, jsStrictEqBool]

/-- Witness for C5: button `"fire"` at pin `0` with pressed-value `1`,
stored state `true`, frame byte `0`: exactly one release event, and the
stored state becomes `false`. -/
theorem button_subsequent_frames_witness :
    processButton1 (fun _ => 0) (setState initialStates "fire" (.bool true))
        ⟨1, 0, "fire"⟩ =
      (setState (setState initialStates "fire" (.bool true)) "fire"
          (.bool false),
        [.release "fire"]) := by
  have h := (button_subsequent_frames (fun _ => 0)
    (setState initialStates "fire" (.bool true)) ⟨1, 0, "fire"⟩ true
    (by simp [setState, initialStates])).1
  simpa using h

/-- C6: status lookup.  The resolved label is the label of the first
entry, in list order, whose `value` equals the masked byte (the loop with
`break` agrees with `List.find?`); in particular when two entries carry
the same value the earlier entry's label is taken. -/
theorem status_lookup_first_match (states : List StatusState) (byte : Nat) :
    (resolveLabel states byte =
      (states.find? (fun e => e.value == byte)).map (fun e => e.state))
    ∧ ∀ (v : Nat) (l1 l2 : String) (rest : List StatusState),
        resolveLabel (⟨v, l1⟩ :: ⟨v, l2⟩ :: rest) v = some l1 := by
  constructor
  · induction states with
    | nil => rfl
    | cons e rest ih =>
        by_cases h : e.value = byte <;>
          simp [resolveLabel, List.find?_cons, h, ih]
  · intro v l1 l2 rest
    simp [resolveLabel]

/-- Helper for C8: when no enumerated configuration file matches any
attached device, the file scan comes up empty. -/
theorem scanFiles_eq_none (files : List (String × GamepadDefinition))
    (devices : List DeviceInfo)
    (h : ∀ fc ∈ files, ∀ d ∈ devices,
      ¬(fc.2.vendorID = d.vendorId ∧ fc.2.productID = d.productId)) :
    scanFiles files devices = none := by
  induction files with
  | nil => rfl
  | cons fc rest ih =>
      have hm : deviceMatches devices fc.2 = false := by
        simp only [deviceMatches, List.any_eq_false]
        intro d hd
        have := h fc (List.mem_cons_self _ _) d hd
        simp only [Bool.and_eq_true, beq_iff_eq]
        exact fun hc => this ⟨hc.1, hc.2⟩
      cases fc with
      | mk file cfg =>
          simp only [scanFiles, hm, Bool.false_eq_true, if_false]
          exact ih fun fc' hfc' => h fc' (List.mem_cons_of_mem _ hfc')

/-- C8: resolving a bare vendor identifier (no `/`) fails with
`configurationNotFound` when the vendor namespace does not exist, and
with `deviceNotDetected` when it exists but no attached device's
`(vendorId, productId)` matches the `(vendorID, productID)` of any
configuration under that vendor; an identifier already containing the
separator is returned as-is and never raises either error. -/
theorem config_resolution_errors (type : String)
    (registry : String → Option (List (String × GamepadDefinition)))
    (devices : List DeviceInfo) :
    (hasProductId type = false → registry type = none →
      detectControllerConfiguration type registry devices =
        .error .configurationNotFound)
    ∧ (∀ files, hasProductId type = false → registry type = some files →
        (∀ fc ∈ files, ∀ d ∈ devices,
          ¬(fc.2.vendorID = d.vendorId ∧ fc.2.productID = d.productId)) →
        detectControllerConfiguration type registry devices =
          .error .deviceNotDetected)
    ∧ (hasProductId type = true →
        detectControllerConfiguration type registry devices = .ok type) := by
  refine ⟨fun h hreg => ?_, fun files h hreg hnone => ?_, fun h => ?_⟩
  · simp [detectControllerConfiguration, h, hreg]
  · simp [detectControllerConfiguration, h, hreg,
      scanFiles_eq_none files devices hnone]
  · simp [detectControllerConfiguration, h]

/-- Witness for C8: a bare vendor name absent from the registry fails with
`configurationNotFound`. -/
theorem config_resolution_errors_witness :
    detectControllerConfiguration "logitech" (fun _ => none) [] =
      .error .configurationNotFound :=
  (config_resolution_errors "logitech" (fun _ => none) []).1 (by decide) rfl

/-! ### Frame-condition helper lemmas

Each per-field step reads and writes the state only at its own field
name; `runPass` lifts this to whole sub-passes. -/

/-- A `runPass` whose step touches only its own name leaves every other
name unchanged. -/
theorem runPass_state_other {α : Type} (step : State → α → State × List Event)
    (nameOf : α → String)
    (hstep : ∀ st c n, n ≠ nameOf c → (step st c).1 n = st n)
    (cfgs : List α) (st : State) (n : String)
    (hn : ∀ c ∈ cfgs, n ≠ nameOf c) :
    (runPass step cfgs st).1 n = st n := by
  induction cfgs generalizing st with
  | nil => rfl
  | cons c cs ih =>
      show (runPass step cs (step st c).1).1 n = st n
      rw [ih (step st c).1 fun c' hc' => hn c' (List.mem_cons_of_mem _ hc')]
      exact hstep st c n (hn c (List.mem_cons_self _ _))

/-- A `runPass` whose step reads and writes only its own name produces
the same events, and the same values at initially-agreeing or configured
names, from two states that agree at every configured name. -/
theorem runPass_congr {α : Type} (step : State → α → State × List Event)
    (nameOf : α → String)
    (hother : ∀ st c n, n ≠ nameOf c → (step st c).1 n = st n)
    (hcongr : ∀ st st' c, st (nameOf c) = st' (nameOf c) →
      (step st c).2 = (step st' c).2 ∧
      (step st c).1 (nameOf c) = (step st' c).1 (nameOf c))
    (cfgs : List α) (st st' : State)
    (hagree : ∀ c ∈ cfgs, st (nameOf c) = st' (nameOf c)) :
    (runPass step cfgs st).2 = (runPass step cfgs st').2 ∧
    ∀ n, (st n = st' n ∨ ∃ c ∈ cfgs, n = nameOf c) →
      (runPass step cfgs st).1 n = (runPass step cfgs st').1 n := by
  induction cfgs generalizing st st' with
  | nil =>
      refine ⟨rfl, fun n hn => ?_⟩
      rcases hn with h | ⟨c, hc, _⟩
      · exact h
      · exact absurd hc (List.not_mem_nil c)
  | cons c cs ih =>
      have h0 := hcongr st st' c (hagree c (List.mem_cons_self _ _))
      have hagree' : ∀ d ∈ cs, (step st c).1 (nameOf d) = (step st' c).1 (nameOf d) := by
        intro d hd
        by_cases hdc : nameOf d = nameOf c
        · rw [hdc]; exact h0.2
        · rw [hother st c _ hdc, hother st' c _ hdc]
          exact hagree d (List.mem_cons_of_mem _ hd)
      have ihr := ih (step st c).1 (step st' c).1 hagree'
      constructor
      · show ((step st c).2 ++ (runPass step cs (step st c).1).2) =
          ((step st' c).2 ++ (runPass step cs (step st' c).1).2)
        rw [h0.1, ihr.1]
      · intro n hn
        show (runPass step cs (step st c).1).1 n =
          (runPass step cs (step st' c).1).1 n
        by_cases hnc : n = nameOf c
        · exact ihr.2 n (Or.inl (by rw [hnc]; exact h0.2))
        · rcases hn with h | ⟨d, hd, hnd⟩
          · refine ihr.2 n (Or.inl ?_)
            rw [hother st c n hnc, hother st' c n hnc]
            exact h
          · rcases List.mem_cons.mp hd with rfl | hd'
            · exact absurd hnd hnc
            · exact ihr.2 n (Or.inr ⟨d, hd', hnd⟩)

/-- The stick step touches no other name. -/
theorem processJoystick1_other (data : Frame) (st : State) (c : StickConfig)
    (n : String) (hn : n ≠ c.name) :
    (processJoystick1 data st c).1 n = st n := by
  unfold processJoystick1
  split_ifs <;> simp [setState, hn]

/-- The stick step depends only on its own name. -/
theorem processJoystick1_congr (data : Frame) (st st' : State)
    (c : StickConfig) (h : st c.name = st' c.name) :
    (processJoystick1 data st c).2 = (processJoystick1 data st' c).2 ∧
    (processJoystick1 data st c).1 c.name = (processJoystick1 data st' c).1 c.name := by
  unfold processJoystick1
  rw [h]
  split_ifs <;> simp [setState, h]

/-- The button step touches no other name. -/
theorem processButton1_other (data : Frame) (st : State) (c : ButtonConfig)
    (n : String) (hn : n ≠ c.name) :
    (processButton1 data st c).1 n = st n := by
  unfold processButton1
  cases st c.name <;> simp [setState, hn]

/-- The button step depends only on its own name. -/
theorem processButton1_congr (data : Frame) (st st' : State)
    (c : ButtonConfig) (h : st c.name = st' c.name) :
    (processButton1 data st c).2 = (processButton1 data st' c).2 ∧
    (processButton1 data st c).1 c.name = (processButton1 data st' c).1 c.name := by
  unfold processButton1
  rw [h]
  cases st' c.name <;> simp [setState]

/-- The status step touches no other name. -/
theorem processStatus1_other (data : Frame) (st : State) (c : StatusConfig)
    (n : String) (hn : n ≠ c.name) :
    (processStatus1 data st c).1 n = st n := by
  simp [processStatus1, setState, hn]

/-- The status step depends only on its own name. -/
theorem processStatus1_congr (data : Frame) (st st' : State)
    (c : StatusConfig) (h : st c.name = st' c.name) :
    (processStatus1 data st c).2 = (processStatus1 data st' c).2 ∧
    (processStatus1 data st c).1 c.name = (processStatus1 data st' c).1 c.name := by
  unfold processStatus1
  rw [h]
  simp [setState]

/-- The stick sub-pass leaves non-stick names unchanged. -/
theorem processJoysticks_other (cfg : Option (List StickConfig))
    (data : Frame) (st : State) (n : String)
    (hn : ∀ c ∈ cfg.getD [], n ≠ c.name) :
    (processJoysticks cfg data st).1 n = st n := by
  cases cfg with
  | none => rfl
  | some sticks =>
      exact runPass_state_other _ (fun c => c.name)
        (processJoystick1_other data) sticks st n (by simpa using hn)

/-- The button sub-pass leaves non-button names unchanged. -/
theorem processButtons_other (cfg : Option (List ButtonConfig))
    (data : Frame) (st : State) (n : String)
    (hn : ∀ c ∈ cfg.getD [], n ≠ c.name) :
    (processButtons cfg data st).1 n = st n := by
  cases cfg with
  | none => rfl
  | some buttons =>
      exact runPass_state_other _ (fun c => c.name)
        (processButton1_other data) buttons st n (by simpa using hn)

/-- The status sub-pass leaves non-status names unchanged. -/
theorem processStatus_other (cfg : Option (List StatusConfig))
    (data : Frame) (st : State) (n : String)
    (hn : ∀ c ∈ cfg.getD [], n ≠ c.name) :
    (processStatus cfg data st).1 n = st n := by
  cases cfg with
  | none => rfl
  | some statuses =>
      exact runPass_state_other _ (fun c => c.name)
        (processStatus1_other data) statuses st n (by simpa using hn)

/-- The scan resolves to a label exactly when some entry matches the
byte. -/
theorem resolveLabel_ne_none (states : List StatusState) (byte : Nat) :
    resolveLabel states byte ≠ none ↔ ∃ e ∈ states, e.value = byte := by
  induction states with
  | nil => simp [resolveLabel]
  | cons e rest ih =>
      by_cases h : e.value = byte <;> simp [resolveLabel, h, ih]

/-- With pairwise distinct status names, the status sub-pass stores at
each configured name exactly the label resolved from the frame. -/
theorem runPass_status_name (data : Frame) (statuses : List StatusConfig) :
    ∀ (st : State), (statuses.map (fun s => s.name)).Nodup →
    ∀ s ∈ statuses,
      (runPass (processStatus1 data) statuses st).1 s.name =
        encodeLabel (resolveLabel s.states (data s.pin % 256)) := by
  induction statuses with
  | nil => intro st _ s hs; exact absurd hs (List.not_mem_nil s)
  | cons c cs ih =>
      intro st hnodup s hs
      have hn := List.nodup_cons.mp hnodup
      rcases List.mem_cons.mp hs with rfl | hs'
      · show (runPass (processStatus1 data) cs
          (processStatus1 data st s).1).1 s.name = _
        rw [runPass_state_other _ (fun t => t.name)
          (processStatus1_other data) cs _ s.name
          (fun t ht hst =>
            hn.1 (by simpa [hst] using List.mem_map_of_mem (fun u => u.name) ht))]
        simp [processStatus1, setState]
      · exact ih (processStatus1 data st c).1 hn.2 s hs'

/-- C7: status state invariant.  With pairwise distinct status names,
after the status sub-pass every configured status's stored entry equals
the label resolved from that frame's masked byte, and it holds a label
(rather than the unset marker) iff some configured `{value, state}` entry
matched; a non-matching frame leaves the unset marker, never a stale
label. -/
theorem status_state_invariant (data : Frame) (st : State)
    (statuses : List StatusConfig)
    (hnodup : (statuses.map (fun s => s.name)).Nodup) :
    ∀ s ∈ statuses,
      (processStatus (some statuses) data st).1 s.name =
        encodeLabel (resolveLabel s.states (data s.pin % 256))
      ∧ ((processStatus (some statuses) data st).1 s.name ≠ .undefined ↔
          ∃ e ∈ s.states, e.value = data s.pin % 256) := by
  intro s hs
  have main := runPass_status_name data statuses st hnodup s hs
  refine ⟨main, ?_⟩
  show (runPass (processStatus1 data) statuses st).1 s.name ≠ .undefined ↔ _
  rw [main, ← resolveLabel_ne_none s.states (data s.pin % 256)]
  cases resolveLabel s.states (data s.pin % 256) <;> simp [encodeLabel]

/-- Witness for C7: one status at pin `0` with entry `{value := 1,
state := "on"}` on a frame of all `1`s stores the label `"on"`, which is
not the unset marker. -/
theorem status_state_invariant_witness :
    (processStatus (some [⟨0, "s", [⟨1, "on"⟩]⟩]) (fun _ => 1)
        initialStates).1 "s" = .str "on" := by
  have h := (status_state_invariant (fun _ => 1) initialStates
    [⟨0, "s", [⟨1, "on"⟩]⟩] (by simp) ⟨0, "s", [⟨1, "on"⟩]⟩
    (List.mem_singleton.mpr rfl)).1
  simpa [resolveLabel, encodeLabel] using h

/-- The stick sub-pass's emissions and writes depend only on the stick
entries of the prior state. -/
theorem processJoysticks_congr (cfg : Option (List StickConfig))
    (data : Frame) (st st' : State)
    (hagree : ∀ c ∈ cfg.getD [], st c.name = st' c.name) :
    (processJoysticks cfg data st).2 = (processJoysticks cfg data st').2 ∧
    ∀ n, (st n = st' n ∨ ∃ c ∈ cfg.getD [], n = c.name) →
      (processJoysticks cfg data st).1 n = (processJoysticks cfg data st').1 n := by
  cases cfg with
  | none =>
      refine ⟨rfl, fun n hn => ?_⟩
      rcases hn with h | ⟨c, hc, _⟩
      · exact h
      · exact absurd hc (List.not_mem_nil c)
  | some sticks =>
      exact runPass_congr _ (fun c => c.name) (processJoystick1_other data)
        (processJoystick1_congr data) sticks st st' (by simpa using hagree)

/-- The button sub-pass's emissions and writes depend only on the button
entries of the prior state. -/
theorem processButtons_congr (cfg : Option (List ButtonConfig))
    (data : Frame) (st st' : State)
    (hagree : ∀ c ∈ cfg.getD [], st c.name = st' c.name) :
    (processButtons cfg data st).2 = (processButtons cfg data st').2 ∧
    ∀ n, (st n = st' n ∨ ∃ c ∈ cfg.getD [], n = c.name) →
      (processButtons cfg data st).1 n = (processButtons cfg data st').1 n := by
  cases cfg with
  | none =>
      refine ⟨rfl, fun n hn => ?_⟩
      rcases hn with h | ⟨c, hc, _⟩
      · exact h
      · exact absurd hc (List.not_mem_nil c)
  | some buttons =>
      exact runPass_congr _ (fun c => c.name) (processButton1_other data)
        (processButton1_congr data) buttons st st' (by simpa using hagree)

/-- The status sub-pass's emissions and writes depend only on the status
entries of the prior state. -/
theorem processStatus_congr (cfg : Option (List StatusConfig))
    (data : Frame) (st st' : State)
    (hagree : ∀ c ∈ cfg.getD [], st c.name = st' c.name) :
    (processStatus cfg data st).2 = (processStatus cfg data st').2 ∧
    ∀ n, (st n = st' n ∨ ∃ c ∈ cfg.getD [], n = c.name) →
      (processStatus cfg data st).1 n = (processStatus cfg data st').1 n := by
  cases cfg with
  | none =>
      refine ⟨rfl, fun n hn => ?_⟩
      rcases hn with h | ⟨c, hc, _⟩
      · exact h
      · exact absurd hc (List.not_mem_nil c)
  | some statuses =>
      exact runPass_congr _ (fun c => c.name) (processStatus1_other data)
        (processStatus1_congr data) statuses st st' (by simpa using hagree)

/-- C9: sub-pass independence.  When field names are pairwise distinct
across sticks, buttons and statuses, one frame's events decompose into
the three sub-passes each evaluated against the state *before* the
frame (so each category's emissions depend only on its own configuration
and prior entries), the final value at each category's names is exactly
what that category's sub-pass alone would have produced from the prior
state, and names configured in no category are untouched. -/
theorem subpass_independence (d : GamepadDefinition) (data : Frame)
    (st : State)
    (hsb : ∀ n, n ∈ stickNames d → n ∉ buttonNames d)
    (hss : ∀ n, n ∈ stickNames d → n ∉ statusNames d)
    (hbs : ∀ n, n ∈ buttonNames d → n ∉ statusNames d) :
    ((onControllerFrame d data st).2 =
      (processJoysticks d.joysticks data st).2 ++
      (processButtons d.buttons data st).2 ++
      (processStatus d.status data st).2)
    ∧ (∀ n, n ∈ stickNames d →
        (onControllerFrame d data st).1 n =
          (processJoysticks d.joysticks data st).1 n)
    ∧ (∀ n, n ∈ buttonNames d →
        (onControllerFrame d data st).1 n =
          (processButtons d.buttons data st).1 n)
    ∧ (∀ n, n ∈ statusNames d →
        (onControllerFrame d data st).1 n =
          (processStatus d.status data st).1 n)
    ∧ (∀ n, n ∉ stickNames d → n ∉ buttonNames d → n ∉ statusNames d →
        (onControllerFrame d data st).1 n = st n) := by
  have hJother : ∀ n, n ∉ stickNames d →
      (processJoysticks d.joysticks data st).1 n = st n := by
    intro n hn
    refine processJoysticks_other d.joysticks data st n fun c hc hnc => ?_
    exact hn (by rw [hnc]; exact List.mem_map_of_mem _ hc)
  have hBother : ∀ n, n ∉ buttonNames d →
      (processButtons d.buttons data
        (processJoysticks d.joysticks data st).1).1 n =
      (processJoysticks d.joysticks data st).1 n := by
    intro n hn
    refine processButtons_other d.buttons data _ n fun c hc hnc => ?_
    exact hn (by rw [hnc]; exact List.mem_map_of_mem _ hc)
  have hSother : ∀ n, n ∉ statusNames d →
      (processStatus d.status data
        (processButtons d.buttons data
          (processJoysticks d.joysticks data st).1).1).1 n =
      (processButtons d.buttons data
        (processJoysticks d.joysticks data st).1).1 n := by
    intro n hn
    refine processStatus_other d.status data _ n fun c hc hnc => ?_
    exact hn (by rw [hnc]; exact List.mem_map_of_mem _ hc)
  have hB := processButtons_congr d.buttons data
    (processJoysticks d.joysticks data st).1 st
    (fun c hc => hJother c.name
      (fun hmem => hsb c.name hmem (List.mem_map_of_mem _ hc)))
  have hS := processStatus_congr d.status data
    (processButtons d.buttons data
      (processJoysticks d.joysticks data st).1).1 st
    (fun c hc => by
      have h1 : c.name ∉ buttonNames d :=
        fun hmem => hbs c.name hmem (List.mem_map_of_mem _ hc)
      have h2 : c.name ∉ stickNames d :=
        fun hmem => hss c.name hmem (List.mem_map_of_mem _ hc)
      rw [hBother c.name h1, hJother c.name h2])
  refine ⟨?_, fun n hn => ?_, fun n hn => ?_, fun n hn => ?_,
    fun n hn1 hn2 hn3 => ?_⟩
  · show (processJoysticks d.joysticks data st).2 ++
      (processButtons d.buttons data
        (processJoysticks d.joysticks data st).1).2 ++
      (processStatus d.status data
        (processButtons d.buttons data
          (processJoysticks d.joysticks data st).1).1).2 = _
    rw [hB.1, hS.1]
  · show (processStatus d.status data
      (processButtons d.buttons data
        (processJoysticks d.joysticks data st).1).1).1 n = _
    rw [hSother n (hss n hn), hBother n (hsb n hn)]
  · show (processStatus d.status data
      (processButtons d.buttons data
        (processJoysticks d.joysticks data st).1).1).1 n = _
    rw [hSother n (hbs n hn)]
    rcases List.mem_map.mp hn with ⟨c, hc, hcn⟩
    exact hB.2 n (Or.inr ⟨c, hc, hcn.symm⟩)
  · show (processStatus d.status data
      (processButtons d.buttons data
        (processJoysticks d.joysticks data st).1).1).1 n = _
    rcases List.mem_map.mp hn with ⟨c, hc, hcn⟩
    exact hS.2 n (Or.inr ⟨c, hc, hcn.symm⟩)
  · show (processStatus d.status data
      (processButtons d.buttons data
        (processJoysticks d.joysticks data st).1).1).1 n = _
    rw [hSother n hn3, hBother n hn2, hJother n hn1]

/-- Witness for C9: a definition with one stick `"left"`, one button
`"fire"` and one status `"mode"` (distinct names) has its frame events
decompose into the three sub-passes evaluated on the prior state. -/
theorem subpass_independence_witness :
    (onControllerFrame
        ⟨0, 0, some [⟨"left", ⟨0⟩, ⟨1⟩⟩], some [⟨1, 2, "fire"⟩],
          some [⟨3, "mode", [⟨1, "on"⟩]⟩]⟩
        (fun _ => 1) initialStates).2 =
      (processJoysticks (some [⟨"left", ⟨0⟩, ⟨1⟩⟩]) (fun _ => 1)
        initialStates).2 ++
      (processButtons (some [⟨1, 2, "fire"⟩]) (fun _ => 1)
        initialStates).2 ++
      (processStatus (some [⟨3, "mode", [⟨1, "on"⟩]⟩]) (fun _ => 1)
        initialStates).2 :=
  (subpass_independence
    ⟨0, 0, some [⟨"left", ⟨0⟩, ⟨1⟩⟩], some [⟨1, 2, "fire"⟩],
      some [⟨3, "mode", [⟨1, "on"⟩]⟩]⟩
    (fun _ => 1) initialStates
    (by simp [stickNames, buttonNames])
    (by simp [stickNames, statusNames])
    (by simp [buttonNames, statusNames])).1

/-- The stick sub-pass only ever emits move events. -/
theorem processJoysticks_no_change (cfg : Option (List StickConfig))
    (data : Frame) (st : State) (n : String) (p : Option String) :
    Event.change n p ∉ (processJoysticks cfg data st).2 := by
  cases cfg with
  | none => exact List.not_mem_nil _
  | some sticks =>
      induction sticks generalizing st with
      | nil => exact List.not_mem_nil _
      | cons c cs ih =>
          show Event.change n p ∉
            (processJoystick1 data st c).2 ++
              (runPass (processJoystick1 data) cs (processJoystick1 data st c).1).2
          rw [List.mem_append]
          rintro (hmem | hmem)
          · revert hmem
            unfold processJoystick1
            split_ifs <;> simp
          · exact ih (processJoystick1 data st c).1 hmem

/-- The button sub-pass only ever emits press and release events. -/
theorem processButtons_no_change (cfg : Option (List ButtonConfig))
    (data : Frame) (st : State) (n : String) (p : Option String) :
    Event.change n p ∉ (processButtons cfg data st).2 := by
  cases cfg with
  | none => exact List.not_mem_nil _
  | some buttons =>
      induction buttons generalizing st with
      | nil => exact List.not_mem_nil _
      | cons c cs ih =>
          show Event.change n p ∉
            (processButton1 data st c).2 ++
              (runPass (processButton1 data) cs (processButton1 data st c).1).2
          rw [List.mem_append]
          rintro (hmem | hmem)
          · revert hmem
            unfold processButton1
            cases st c.name <;> dsimp only <;> split_ifs <;> simp
          · exact ih (processButton1 data st c).1 hmem

/-- In a status sub-pass where every configuration named `n` has an empty
states list, a run starting with `n` unset emits no change event for `n`
and leaves `n` unset. -/
theorem runPass_status_silent (data : Frame) :
    ∀ (cfgs : List StatusConfig) (n : String) (st : State),
      (∀ t ∈ cfgs, t.name = n → t.states = []) → st n = .undefined →
      (∀ p, Event.change n p ∉ (runPass (processStatus1 data) cfgs st).2) ∧
      (runPass (processStatus1 data) cfgs st).1 n = .undefined := by
  intro cfgs
  induction cfgs with
  | nil => exact fun n st _ h => ⟨fun p => List.not_mem_nil _, h⟩
  | cons c cs ih =>
      intro n st hname h
      have hstep : (∀ p, Event.change n p ∉ (processStatus1 data st c).2) ∧
          (processStatus1 data st c).1 n = .undefined := by
        by_cases hc : c.name = n
        · have hempty := hname c (List.mem_cons_self _ _) hc
          constructor
          · intro p
            simp [processStatus1, hempty, resolveLabel, hc, h, jsEqOptStr]
          · simp [processStatus1, hempty, resolveLabel, encodeLabel,
              setState, hc, h]
        · constructor
          · intro p
            unfold processStatus1
            dsimp only
            split_ifs <;> simp
            exact fun hnc _ => hc hnc.symm
          · simp [processStatus1, setState, Ne.symm hc, h]
      have ihr := ih n (processStatus1 data st c).1
        (fun t ht => hname t (List.mem_cons_of_mem _ ht)) hstep.2
      constructor
      · intro p
        show Event.change n p ∉
          (processStatus1 data st c).2 ++
            (runPass (processStatus1 data) cs (processStatus1 data st c).1).2
        rw [List.mem_append]
        rintro (hmem | hmem)
        · exact hstep.1 p hmem
        · exact ihr.1 p hmem
      · exact ihr.2

/-- Per-frame version: a frame emits no change event for a name that is
no stick or button name and whose status configurations all have empty
states lists; the name stays unset. -/
theorem frame_status_silent (d : GamepadDefinition) (data : Frame)
    (n : String) (hstick : n ∉ stickNames d) (hbutton : n ∉ buttonNames d)
    (hname : ∀ t ∈ d.status.getD [], t.name = n → t.states = [])
    (st : State) (h : st n = .undefined) :
    (∀ p, Event.change n p ∉ (onControllerFrame d data st).2) ∧
    (onControllerFrame d data st).1 n = .undefined := by
  have h1 : (processJoysticks d.joysticks data st).1 n = .undefined := by
    rw [processJoysticks_other d.joysticks data st n
      (fun c hc hnc => hstick (by rw [hnc]; exact List.mem_map_of_mem _ hc))]
    exact h
  have h2 : (processButtons d.buttons data
      (processJoysticks d.joysticks data st).1).1 n = .undefined := by
    rw [processButtons_other d.buttons data _ n
      (fun c hc hnc => hbutton (by rw [hnc]; exact List.mem_map_of_mem _ hc))]
    exact h1
  cases hcfg : d.status with
  | none =>
      constructor
      · intro p
        show Event.change n p ∉
          (processJoysticks d.joysticks data st).2 ++
            (processButtons d.buttons data
              (processJoysticks d.joysticks data st).1).2 ++
            (processStatus d.status data
              (processButtons d.buttons data
                (processJoysticks d.joysticks data st).1).1).2
        rw [hcfg]
        simp only [processStatus, List.append_nil, List.mem_append]
        rintro (hmem | hmem)
        · exact processJoysticks_no_change d.joysticks data st n p hmem
        · exact processButtons_no_change d.buttons data _ n p hmem
      · show (processStatus d.status data
          (processButtons d.buttons data
            (processJoysticks d.joysticks data st).1).1).1 n = .undefined
        rw [hcfg]
        exact h2
  | some statuses =>
      have hs := runPass_status_silent data statuses n
        (processButtons d.buttons data
          (processJoysticks d.joysticks data st).1).1
        (by rw [hcfg] at hname; simpa using hname) h2
      constructor
      · intro p
        show Event.change n p ∉
          (processJoysticks d.joysticks data st).2 ++
            (processButtons d.buttons data
              (processJoysticks d.joysticks data st).1).2 ++
            (processStatus d.status data
              (processButtons d.buttons data
                (processJoysticks d.joysticks data st).1).1).2
        rw [hcfg]
        simp only [processStatus, List.mem_append]
        rintro ((hmem | hmem) | hmem)
        · exact processJoysticks_no_change d.joysticks data st n p hmem
        · exact processButtons_no_change d.buttons data _ n p hmem
        · exact hs.1 p hmem
      · show (processStatus d.status data
          (processButtons d.buttons data
            (processJoysticks d.joysticks data st).1).1).1 n = .undefined
        rw [hcfg]
        exact hs.2

/-- C10: for a configured status whose states list is empty (its name
colliding with no stick, button or other status), no frame sequence of
any length ever produces a `"<name>:change"` event from the initial
state: the resolved label is the unset marker on every frame, equal to
the stored unset marker, which therefore never changes. -/
theorem status_empty_states_silent (d : GamepadDefinition)
    (s : StatusConfig) (hmem : s ∈ d.status.getD []) (hempty : s.states = [])
    (hstick : s.name ∉ stickNames d) (hbutton : s.name ∉ buttonNames d)
    (hname : ∀ t ∈ d.status.getD [], t.name = s.name → t.states = [])
    (frames : List Frame) (p : Option String) :
    Event.change s.name p ∉ (runFrames d frames initialStates).2 := by
  have key : ∀ (fs : List Frame) (st : State), st s.name = .undefined →
      ∀ q, Event.change s.name q ∉ (runFrames d fs st).2 := by
    intro fs
    induction fs with
    | nil => intro st _ q; exact List.not_mem_nil _
    | cons f rest ih =>
        intro st h q
        have hf := frame_status_silent d f s.name hstick hbutton hname st h
        show Event.change s.name q ∉
          (onControllerFrame d f st).2 ++
            (runFrames d rest (onControllerFrame d f st).1).2
        rw [List.mem_append]
        rintro (hmem | hmem)
        · exact hf.1 q hmem
        · exact ih (onControllerFrame d f st).1 hf.2 q hmem
  exact key frames initialStates rfl p

/-- Witness for C10: a lone status `"s"` with an empty states list emits
nothing over two frames. -/
theorem status_empty_states_silent_witness :
    Event.change "s" none ∉
      (runFrames ⟨0, 0, none, none, some [⟨0, "s", []⟩]⟩
        [fun _ => 1, fun _ => 2] initialStates).2 :=
  status_empty_states_silent ⟨0, 0, none, none, some [⟨0, "s", []⟩]⟩
    ⟨0, "s", []⟩ (by simp) rfl
    (by simp [stickNames]) (by simp [buttonNames])
    (by intro t ht _; simp at ht; rw [ht]) [fun _ => 1, fun _ => 2] none

end Drivethru
